import Mathlib

/-!
Shallow embedding of the Tab Snapshot & Restore Engine of the `cleanx`
VS Code extension, translated from
`src/services/tabWorkspaceService.ts` (TabWorkspaceService) and the
`TabSortingService` source file.

Modelling notes, fixed once for the whole development:

* Timestamps (`new Date()`, `Date.now()`) are modelled as a `Nat` clock
  value passed explicitly to every operation that stamps a record.
* A `vscode.Uri` is modelled by its string form; `uri.toString()` is the
  identity and `uri.fsPath` strips the `scheme://` prefix (posix paths,
  empty authority — the only shape the extension produces).
* `context.globalState` is a VS Code `Memento`.  Within one session its
  `get` returns the same cached object on every call, so mutations made
  between a `get` and an `update` are visible to every later `get`
  (reference aliasing).  The embedding therefore threads one
  `TabWorkspaceState` value sequentially through each operation; the
  state returned by an operation is the state the next `getState` sees,
  also when the operation ends by throwing after a `setState`.
* Thrown `Error`s are modelled by `Except WsError`; an operation that
  both mutates persisted state and throws returns the mutated state
  together with the error.
* Host calls (`fs.stat`, `openTextDocument`, `showTextDocument`,
  `tabGroups.close`, the `vscode.diff` command) are modelled by a `Host`
  record of outcome functions, and every call actually issued is
  recorded in an event trace of `HostCall`s, so that theorems can speak
  about which calls were made and with which options.
-/

namespace Cleanx

/-- A persisted workspace record (interface `TabWorkspace` in
`src/types/index.ts`): a name plus the ordered list of saved URI strings
and two timestamps. -/
structure TabWorkspace where
  name : String
  tabs : List String
  createdAt : Nat
  lastModified : Nat
deriving Repr, DecidableEq

/-- The persisted store root (interface `TabWorkspaceState`):
the named collection, the weak `currentWorkspace` name reference and the
single `previousWorkspace` auto-save slot. -/
structure TabWorkspaceState where
  workspaces : List TabWorkspace
  currentWorkspace : Option String
  previousWorkspace : Option TabWorkspace
deriving Repr, DecidableEq

/-- The discriminated pane input of a live tab
(`vscode.TabInputText` / `TabInputTextDiff` / `TabInputCustom` / other). -/
inductive TabInput where
  | text (uri : String)
  | textDiff (original modified : String)
  | custom (uri : String) (viewType : String)
  | other
deriving Repr, DecidableEq

/-- A live editor tab as the host reports it (`vscode.Tab` restricted to
the fields the services read). -/
structure Tab where
  isActive : Bool
  isPinned : Bool
  label : String
  viewColumn : Int
  input : TabInput
deriving Repr, DecidableEq

/-- In-memory tab descriptor (interface `TabInfo`): the common fields
plus the optional resource identifiers set according to the input kind. -/
structure TabInfo where
  uri : Option String := none
  originalUri : Option String := none
  modifiedUri : Option String := none
  viewType : Option String := none
  isActive : Bool
  isPinned : Bool
  label : String
  viewColumn : Int
deriving Repr, DecidableEq

/-- `extractTabInfos` on one tab (tabWorkspaceService.ts lines 323-344,
identically in the sorting service's collection loop): copy the common
fields, then set `uri` / `originalUri`+`modifiedUri` / `uri`+`viewType`
by the input's kind; unrecognized kinds keep only the common fields. -/
def extractTabInfo (tab : Tab) : TabInfo :=
  let base : TabInfo :=
    { isActive := tab.isActive, isPinned := tab.isPinned,
      label := tab.label, viewColumn := tab.viewColumn }
  match tab.input with
  | .text uri => { base with uri := some uri }
  | .textDiff o m => { base with originalUri := some o, modifiedUri := some m }
  | .custom uri vt => { base with uri := some uri, viewType := some vt }
  | .other => base

/-- `extractTabInfos` over the whole live tab list. -/
def extractTabInfos (tabs : List Tab) : List TabInfo :=
  tabs.map extractTabInfo

/-- The file-path extraction of `saveCurrentTabsAsWorkspace`
(lines 70-78): a plain tab contributes its own `uri`, a diff tab its
`modifiedUri`, anything else nothing. -/
def extractFilePath (t : TabInfo) : Option String :=
  if t.uri.isSome && t.originalUri.isNone then t.uri
  else if t.modifiedUri.isSome then t.modifiedUri
  else none

/-- The saved path list of a tab-info list. -/
def extractFilePaths (ts : List TabInfo) : List String :=
  ts.filterMap extractFilePath

/-- The workspace record `saveCurrentTabsAsWorkspace` builds
(lines 83-88): extracted paths, both timestamps fresh. -/
def mkWorkspace (name : String) (liveTabs : List Tab) (now : Nat) : TabWorkspace :=
  { name := name, tabs := extractFilePaths (extractTabInfos liveTabs),
    createdAt := now, lastModified := now }

/-- `saveCurrentTabsAsWorkspace(name, isAutoSave)` (lines 62-118).
Named save: drop every stored workspace with the same name, append the
new record, point `currentWorkspace` at it.  Auto-save: overwrite the
`previousWorkspace` slot only.  Returns the new persisted state and the
workspace record the method returns. -/
def saveCurrentTabsAsWorkspace (name : String) (isAutoSave : Bool)
    (liveTabs : List Tab) (now : Nat) (s : TabWorkspaceState) :
    TabWorkspaceState × TabWorkspace :=
  let w := mkWorkspace name liveTabs now
  if isAutoSave then
    ({ s with previousWorkspace := some w }, w)
  else
    ({ s with
        workspaces := s.workspaces.filter (fun x => x.name != name) ++ [w],
        currentWorkspace := some name }, w)

/-- The labelled failures the store operations throw (§7 of the spec). -/
inductive WsError where
  | notFound (name : String)
  | conflict (name : String)
  | noPreviousWorkspace
  | batchCloseFailure
deriving Repr, DecidableEq

/-- `getCurrentWorkspaceName()` (lines 52-54). -/
def getCurrentWorkspaceName (s : TabWorkspaceState) : Option String :=
  s.currentWorkspace

/-- `deleteWorkspace(name)` (lines 226-248): filter the named record
out, clear `currentWorkspace` when it named the deleted workspace, and
persist (`setState` at line 237) *before* the not-found check at
line 239, so the persisted state is the filtered one even when the call
ends in `NotFound`. -/
def deleteWorkspace (name : String) (s : TabWorkspaceState) :
    TabWorkspaceState × Except WsError Unit :=
  let s' : TabWorkspaceState :=
    { s with
        workspaces := s.workspaces.filter (fun w => w.name != name),
        currentWorkspace :=
          if s.currentWorkspace = some name then none else s.currentWorkspace }
  if s'.workspaces.length < s.workspaces.length then (s', .ok ())
  else (s', .error (.notFound name))

/-- Rename the first stored workspace carrying `oldName` in place
(the source mutates the record `find` returned, line 267-268). -/
def renameFirst (oldName newName : String) (now : Nat) :
    List TabWorkspace → List TabWorkspace
  | [] => []
  | w :: ws =>
    if w.name = oldName then { w with name := newName, lastModified := now } :: ws
    else w :: renameFirst oldName newName now ws

/-- `renameWorkspace(oldName, newName)` (lines 253-281): `NotFound` when
`oldName` is absent, `Conflict` when any stored workspace already
carries `newName` (the renamed workspace itself included); both checks
happen before any mutation, so the state is unchanged on error.  On
success the found record gets the new name and a fresh `lastModified`,
and `currentWorkspace` follows the rename when it pointed at `oldName`. -/
def renameWorkspace (oldName newName : String) (now : Nat)
    (s : TabWorkspaceState) : TabWorkspaceState × Except WsError Unit :=
  match s.workspaces.find? (fun w => w.name == oldName) with
  | none => (s, .error (.notFound oldName))
  | some _ =>
    if s.workspaces.any (fun w => w.name == newName) then
      (s, .error (.conflict newName))
    else
      ({ s with
          workspaces := renameFirst oldName newName now s.workspaces,
          currentWorkspace :=
            if s.currentWorkspace = some oldName then some newName
            else s.currentWorkspace }, .ok ())

/-- Outcome functions of the editor host: whether the batch close
succeeds, and per URI whether each of the stat / open-document /
show-document / diff-command calls throws (`some msg`) or succeeds
(`none`; `diffFail` is a plain flag keyed by the modified URI). -/
structure Host where
  closeOk : Bool
  statFail : String → Option String
  openDocFail : String → Option String
  showDocFail : String → Option String
  diffFail : String → Bool

/-- One recorded call to the host, with the options the source passes:
`showDoc` records the target URI, the `viewColumn` option when passed,
the `preview` option when passed, and `preserveFocus`. -/
inductive HostCall where
  | closeAll
  | statCall (uri : String)
  | openDoc (uri : String)
  | showDoc (uri : String) (viewColumn : Option Int) (preview : Option Bool)
      (preserveFocus : Bool)
  | openDiff (original modified label : String) (viewColumn : Int) (preview : Bool)
deriving Repr, DecidableEq

/-- Drop the first `n` characters of a string (structural, so concrete
runs reduce inside the kernel). -/
def strDrop (s : String) (n : Nat) : String :=
  String.mk (s.toList.drop n)

/-- Whether `p` is a prefix of `s` (structural). -/
def strStartsWith (s p : String) : Bool :=
  p.toList.isPrefixOf s.toList

/-- `vscode.Uri.parse(s).scheme`: the part of the URI string before the
first colon. -/
def uriScheme (s : String) : String :=
  String.mk (s.toList.takeWhile (fun c => c != ':'))

/-- `vscode.Uri.fsPath` on a posix host with empty authority: strip the
`scheme://` prefix when present. -/
def fsPath (uriStr : String) : String :=
  if strStartsWith (strDrop uriStr (uriScheme uriStr).length) "://" then
    strDrop uriStr ((uriScheme uriStr).length + 3)
  else uriStr

/-- The opened/skipped counters `loadWorkspace` returns. -/
structure OpenStats where
  opened : Nat
  skipped : Nat
deriving Repr, DecidableEq

/-- One iteration of the reopen loop of `loadWorkspace`
(lines 161-202) on one stored URI string: non-`file` schemes are
skipped without any host call; `file` URIs are stat-ed, then opened,
then shown with `preview: false`, `preserveFocus: true` and no
`viewColumn` option (lines 173-176).  Any failure of the three calls is
caught and counted as skipped.  Returns the calls issued and whether
the tab counted as opened. -/
def loadOpenStep (host : Host) (uriStr : String) : List HostCall × Bool :=
  if uriScheme uriStr = "file" then
    match host.statFail uriStr with
    | some _ => ([.statCall uriStr], false)
    | none =>
      match host.openDocFail uriStr with
      | some _ => ([.statCall uriStr, .openDoc uriStr], false)
      | none =>
        match host.showDocFail uriStr with
        | some _ =>
          ([.statCall uriStr, .openDoc uriStr,
            .showDoc uriStr none (some false) true], false)
        | none =>
          ([.statCall uriStr, .openDoc uriStr,
            .showDoc uriStr none (some false) true], true)
  else ([], false)

/-- Whether a stored URI string is reopenable under `host`: `file`
scheme and all three of stat / open / show succeed. -/
def tabOpenable (host : Host) (uriStr : String) : Bool :=
  uriScheme uriStr = "file" && (host.statFail uriStr).isNone
    && (host.openDocFail uriStr).isNone && (host.showDocFail uriStr).isNone

/-- Accumulate one loop iteration: bump `opened` or `skipped` by the
step's outcome and append its calls to the trace. -/
def loadLoopStep (host : Host) (acc : OpenStats × List HostCall) (u : String) :
    OpenStats × List HostCall :=
  let step := loadOpenStep host u
  (⟨acc.1.opened + (if step.2 then 1 else 0),
    acc.1.skipped + (if step.2 then 0 else 1)⟩,
   acc.2 ++ step.1)

/-- The whole reopen loop of `loadWorkspace` over the stored tab list:
fold `loadLoopStep`, accumulating counters and the call trace. -/
def loadOpenLoop (host : Host) (tabs : List String) : OpenStats × List HostCall :=
  tabs.foldl (loadLoopStep host) (⟨0, 0⟩, [])

/-- Everything observable about one `loadWorkspace` call: the persisted
state when the call returns or throws, the host calls issued, and the
returned counters or the thrown error. -/
structure LoadOutcome where
  state : TabWorkspaceState
  calls : List HostCall
  result : Except WsError OpenStats
deriving Repr

/-- `loadWorkspace(name, autoSaveCurrent)` (lines 126-221).
`NotFound` when no stored workspace carries `name`.  Otherwise: when
`autoSaveCurrent` and at least one pane is open, run the auto-save
(which persists the `previousWorkspace` slot); close all live tabs in
one batch — a throwing close propagates out of the method
(`BatchCloseFailure`) before any reopen; then run the reopen loop over
the stored tab list, set `currentWorkspace := name` and persist.
The source refreshes `lastModified` only on the spread-created copy of
the stored record (lines 136-140 and 207), so the record inside
`workspaces` keeps its old timestamp; the embedding mirrors that. -/
def loadWorkspace (name : String) (autoSaveCurrent : Bool)
    (liveTabs : List Tab) (host : Host) (now : Nat)
    (s : TabWorkspaceState) : LoadOutcome :=
  match s.workspaces.find? (fun w => w.name == name) with
  | none => ⟨s, [], .error (.notFound name)⟩
  | some workspaceData =>
    let s₁ :=
      if autoSaveCurrent && !liveTabs.isEmpty then
        (saveCurrentTabsAsWorkspace ("auto-save-" ++ toString now) true
          liveTabs now s).1
      else s
    if !liveTabs.isEmpty && !host.closeOk then
      ⟨s₁, [.closeAll], .error .batchCloseFailure⟩
    else
      let closeCalls : List HostCall := if liveTabs.isEmpty then [] else [.closeAll]
      let loop := loadOpenLoop host workspaceData.tabs
      ⟨{ s₁ with currentWorkspace := some name }, closeCalls ++ loop.2, .ok loop.1⟩

/-- Everything observable about one `restorePreviousWorkspace` call. -/
structure RestoreOutcome where
  state : TabWorkspaceState
  calls : List HostCall
  result : Except WsError Unit
deriving Repr

/-- `restorePreviousWorkspace()` (lines 365-387): `NoPreviousWorkspace`
when the slot is empty.  Otherwise push a copy of the slot's record
under the synthesized name onto the shared state object (visible to the
nested `loadWorkspace` through Memento aliasing), load it, and only
after a successful load clear the slot and persist; a throwing load
propagates with the slot still populated. -/
def restorePreviousWorkspace (liveTabs : List Tab) (host : Host) (now : Nat)
    (s : TabWorkspaceState) : RestoreOutcome :=
  match s.previousWorkspace with
  | none => ⟨s, [], .error .noPreviousWorkspace⟩
  | some prev =>
    let tempName := "restored-" ++ toString now
    let s₁ := { s with workspaces := s.workspaces ++ [{ prev with name := tempName }] }
    let lo := loadWorkspace tempName false liveTabs host now s₁
    match lo.result with
    | .error e => ⟨lo.state, lo.calls, .error e⟩
    | .ok _ => ⟨{ lo.state with previousWorkspace := none }, lo.calls, .ok ()⟩

/-- JS `String.prototype.toLowerCase` on the ASCII range. -/
def toLower (s : String) : String :=
  String.mk (s.toList.map Char.toLower)

/-- The position of the last `'.'` in a character list, if any. -/
def lastDotIdx (l : List Char) : Option Nat :=
  (List.range l.length).foldl
    (fun acc i => if l.get? i = some '.' then some i else acc) none

/-- Node `path.basename` (posix, no trailing separator): the characters
after the last `'/'`. -/
def basename (p : String) : String :=
  String.mk (p.toList.foldl (fun acc c => if c = '/' then [] else acc ++ [c]) [])

/-- Node `path.extname` (posix): the suffix of the base name from its
last `'.'`; empty when the base name has no dot or only a leading dot. -/
def extname (p : String) : String :=
  let b := (basename p).toList
  match lastDotIdx b with
  | some i => if i = 0 then "" else String.mk (b.drop i)
  | none => ""

/-- The extension computation shared by `getFileExtension` and
`getFileExtensionFromTabInfo`: `path.extname`, leading dot removed,
lower-cased; empty when `extname` produced no dot. -/
def extOf (filePath : String) : String :=
  let e := extname filePath
  if strStartsWith e "." then toLower (strDrop e 1) else ""

/-- `getFileExtensionFromTabInfo` (TabSortingService): the path is the
`uri`'s fsPath for a plain tab, the `modifiedUri`'s fsPath for a diff
tab, the raw label otherwise; then `extOf`. -/
def getFileExtensionFromTabInfo (t : TabInfo) : String :=
  match t.uri, t.originalUri, t.modifiedUri with
  | some u, none, _ => extOf (fsPath u)
  | _, _, some m => extOf (fsPath m)
  | _, _, _ => extOf t.label

/-- `getFileNameFromTabInfo` (TabSortingService): lower-cased base name
of the resolved path, or the lower-cased label when no path resolves. -/
def getFileNameFromTabInfo (t : TabInfo) : String :=
  match t.uri, t.originalUri, t.modifiedUri with
  | some u, none, _ => toLower (basename (fsPath u))
  | _, _, some m => toLower (basename (fsPath m))
  | _, _, _ => toLower t.label

/-- Lexicographic code-point comparison of character lists:
`-1` / `0` / `1`. -/
def charListCmp : List Char → List Char → Int
  | [], [] => 0
  | [], _ :: _ => -1
  | _ :: _, [] => 1
  | a :: as, b :: bs =>
    if a.toNat < b.toNat then -1
    else if b.toNat < a.toNat then 1
    else charListCmp as bs

/-- JS `localeCompare`, modelled as code-point order (the extension only
compares ASCII names): negative / zero / positive. -/
def strCmp (a b : String) : Int :=
  charListCmp a.toList b.toList

/-- JS `Array.prototype.indexOf`: index of the first occurrence, `-1`
when absent. -/
def jsIndexOf (l : List String) (x : String) : Int :=
  match l with
  | [] => -1
  | h :: t =>
    if h = x then 0
    else
      let r := jsIndexOf t x
      if r = -1 then -1 else r + 1

/-- The comparator of `sortTabInfoArray` (TabSortingService), verbatim:
with a non-empty custom order, both extensions listed → by index, ties
by file name; exactly one listed → that one first; otherwise (and with
an empty custom order) by extension, ties by file name. -/
def tabCmp (customFileTypeOrder : List String) (a b : TabInfo) : Int :=
  let aExt := getFileExtensionFromTabInfo a
  let bExt := getFileExtensionFromTabInfo b
  let aFileName := getFileNameFromTabInfo a
  let bFileName := getFileNameFromTabInfo b
  let dflt := if aExt ≠ bExt then strCmp aExt bExt else strCmp aFileName bFileName
  if 0 < customFileTypeOrder.length then
    let aIndex := jsIndexOf customFileTypeOrder aExt
    let bIndex := jsIndexOf customFileTypeOrder bExt
    if aIndex ≠ -1 && bIndex ≠ -1 then
      if aIndex ≠ bIndex then aIndex - bIndex else strCmp aFileName bFileName
    else if aIndex ≠ -1 then -1
    else if bIndex ≠ -1 then 1
    else dflt
  else dflt

/-- Insert an element into a list sorted by a JS comparator, after every
element it does not strictly precede (the stable position). -/
def insertByCmp (cmp : α → α → Int) (x : α) : List α → List α
  | [] => [x]
  | y :: ys => if cmp x y < 0 then x :: y :: ys else y :: insertByCmp cmp x ys

/-- JS `Array.prototype.sort` with a consistent comparator (stable since
ES2019), modelled as stable insertion sort. -/
def stableSortByCmp (cmp : α → α → Int) (l : List α) : List α :=
  l.foldl (fun acc x => insertByCmp cmp x acc) []

/-- `sortTabInfoArray(tabInfos, customFileTypeOrder)`. -/
def sortTabInfoArray (tabInfos : List TabInfo)
    (customFileTypeOrder : List String) : List TabInfo :=
  stableSortByCmp (tabCmp customFileTypeOrder) tabInfos

/-- One iteration of the reopen loop of `sortTabs` on one descriptor:
a plain tab (`uri` set, `originalUri` unset) is opened — with *no*
existence check — and shown with its recorded `viewColumn`,
`preview: !isPinned`, `preserveFocus: true`; a diff descriptor goes
through the `vscode.diff` command with the same options; anything else
does nothing.  Failures are caught; success increments the count. -/
def sortReopenStep (host : Host) (t : TabInfo) : List HostCall × Bool :=
  match t.uri, t.originalUri, t.modifiedUri with
  | some u, none, _ =>
    (match host.openDocFail u with
     | some _ => ([.openDoc u], false)
     | none =>
       match host.showDocFail u with
       | some _ =>
         ([.openDoc u, .showDoc u (some t.viewColumn) (some !t.isPinned) true],
          false)
       | none =>
         ([.openDoc u, .showDoc u (some t.viewColumn) (some !t.isPinned) true],
          true))
  | _, some o, some m =>
    ([.openDiff o m t.label t.viewColumn !t.isPinned], !host.diffFail m)
  | _, _, _ => ([], false)

/-- The `activeTabInfo` variable of `sortTabs`: reassigned on every
active tab while collecting, so the last active one wins. -/
def lastActive? (infos : List TabInfo) : Option TabInfo :=
  infos.foldl (fun acc t => if t.isActive then some t else acc) none

/-- The focus-restore epilogue of `sortTabs` (lines 110-121): when the
captured active descriptor has a `uri`, open it and show it with its
`viewColumn`, `preserveFocus: false` and no `preview` option; failures
are swallowed. -/
def sortFocusCalls (host : Host) (active : Option TabInfo) : List HostCall :=
  match active with
  | none => []
  | some a =>
    match a.uri with
    | none => []
    | some u =>
      match host.openDocFail u with
      | some _ => [.openDoc u]
      | none => [.openDoc u, .showDoc u (some a.viewColumn) none false]

/-- Everything observable about one `sortTabs` call: the host calls
issued and the returned reopened count.  `sortTabs` never throws: every
failure path returns. -/
structure SortOutcome where
  calls : List HostCall
  reopened : Nat
deriving Repr, DecidableEq

/-- `sortTabs(customFileTypeOrder)` (TabSortingService): with at most
one live tab return 0 untouched; otherwise extract descriptors, sort
them, batch-close — a throwing close is caught and the method returns 0
having reopened nothing — then reopen in sorted order counting
successes, and finally try to restore focus. -/
def sortTabs (customFileTypeOrder : List String) (liveTabs : List Tab)
    (host : Host) : SortOutcome :=
  if liveTabs.length ≤ 1 then ⟨[], 0⟩
  else
    let allTabInfos := extractTabInfos liveTabs
    let activeTabInfo := lastActive? allTabInfos
    let sorted := sortTabInfoArray allTabInfos customFileTypeOrder
    if !host.closeOk then ⟨[.closeAll], 0⟩
    else
      let loop :=
        sorted.foldl
          (fun (acc : List HostCall × Nat) t =>
            let step := sortReopenStep host t
            (acc.1 ++ step.1, acc.2 + (if step.2 then 1 else 0)))
          ([], 0)
      ⟨[HostCall.closeAll] ++ loop.1 ++ sortFocusCalls host activeTabInfo, loop.2⟩

/-! ### Helper lemmas -/

/-- Equality of `Except` outcomes is decidable when it is on both sides,
so concrete runs can be settled by `decide`. -/
instance {ε α : Type} [DecidableEq ε] [DecidableEq α] :
    DecidableEq (Except ε α) := fun a b =>
  match a, b with
  | .ok x, .ok y =>
    if h : x = y then .isTrue (by rw [h]) else .isFalse (fun hc => h (Except.ok.inj hc))
  | .error x, .error y =>
    if h : x = y then .isTrue (by rw [h]) else .isFalse (fun hc => h (Except.error.inj hc))
  | .ok _, .error _ => .isFalse Except.noConfusion
  | .error _, .ok _ => .isFalse Except.noConfusion

/-- A host on which every call succeeds. -/
def hostAllOk : Host :=
  { closeOk := true, statFail := fun _ => none, openDocFail := fun _ => none,
    showDocFail := fun _ => none, diffFail := fun _ => false }

/-- Appending a matching element keeps `find?` successful. -/
lemma find?_append_single_isSome {α : Type} {l : List α} {x : α} {p : α → Bool}
    (hx : p x = true) : ((l ++ [x]).find? p).isSome = true := by
  rw [List.find?_isSome]
  exact ⟨x, List.mem_append_right _ (List.mem_singleton_self x), hx⟩

/-- `find?` over an append whose left part has no match finds in the right part. -/
lemma find?_append_left_none {α : Type} {l₁ l₂ : List α} {p : α → Bool}
    (h : l₁.find? p = none) : (l₁ ++ l₂).find? p = l₂.find? p := by
  rw [List.find?_append, h, Option.none_or]

/-- The two complementary `countP`s of a list sum to its length. -/
lemma countP_add_countP_not {α : Type} (p : α → Bool) (l : List α) :
    l.countP p + l.countP (fun a => !p a) = l.length := by
  induction l with
  | nil => simp
  | cons a l ih =>
    rw [List.countP_cons, List.countP_cons]
    cases h : p a <;> simp [h] <;> omega

/-! ### Claims C5, C6, C10, C7, C9, C2 -/

/-- **C5**: two non-auto saves under the same name, over any starting
store and any two live tab sets, leave exactly one stored workspace
under that name, whose tab list is the path extraction of the second
tab set, and leave `currentWorkspace` pointing at that name. -/
theorem save_twice_single_named_workspace
    (s : TabWorkspaceState) (name : String) (tabs₁ tabs₂ : List Tab)
    (now₁ now₂ : Nat) :
    ((saveCurrentTabsAsWorkspace name false tabs₂ now₂
        (saveCurrentTabsAsWorkspace name false tabs₁ now₁ s).1).1.workspaces.countP
        (fun w => w.name == name) = 1)
    ∧ ((saveCurrentTabsAsWorkspace name false tabs₂ now₂
        (saveCurrentTabsAsWorkspace name false tabs₁ now₁ s).1).1.workspaces.find?
        (fun w => w.name == name) = some (mkWorkspace name tabs₂ now₂))
    ∧ (mkWorkspace name tabs₂ now₂).tabs = extractFilePaths (extractTabInfos tabs₂)
    ∧ ((saveCurrentTabsAsWorkspace name false tabs₂ now₂
        (saveCurrentTabsAsWorkspace name false tabs₁ now₁ s).1).1.currentWorkspace
        = some name) := by
  have hq : ∀ l : List TabWorkspace,
      (l.filter (fun w => w.name != name)).countP (fun w => w.name == name) = 0 := by
    intro l
    rw [List.countP_eq_zero]
    intro a ha
    have := (List.mem_filter.mp ha).2
    simp only [bne_iff_ne, ne_eq] at this
    simp [this]
  have hfind : ∀ l : List TabWorkspace,
      (l.filter (fun w => w.name != name)).find? (fun w => w.name == name) = none := by
    intro l
    rw [List.find?_eq_none]
    intro a ha
    have := (List.mem_filter.mp ha).2
    simp only [bne_iff_ne, ne_eq] at this
    simp [this]
  refine ⟨?_, ?_, rfl, ?_⟩
  · simp only [saveCurrentTabsAsWorkspace, Bool.false_eq_true, if_false,
      List.filter_append, List.countP_append]
    rw [hq]
    have h1 : (mkWorkspace name tabs₁ now₁).name = name := rfl
    simp [List.filter_cons, mkWorkspace, hq]
  · simp only [saveCurrentTabsAsWorkspace, Bool.false_eq_true, if_false,
      List.filter_append]
    have h1 : List.filter (fun w => w.name != name) [mkWorkspace name tabs₁ now₁]
        = [] := by
      simp [List.filter_cons, mkWorkspace]
    rw [h1, List.append_nil]
    rw [find?_append_left_none (hfind _)]
    simp [List.find?, mkWorkspace]
  · simp [saveCurrentTabsAsWorkspace]

/-- Shared content of C6 and C10: when both `oldName` and `newName` are
names of stored workspaces, `renameWorkspace` returns the store
untouched together with `Conflict`. -/
lemma rename_conflict_of_mem {s : TabWorkspaceState} {a b : String} {now : Nat}
    (ha : ∃ w ∈ s.workspaces, w.name = a) (hb : ∃ w ∈ s.workspaces, w.name = b) :
    renameWorkspace a b now s = (s, .error (.conflict b)) := by
  have hs : (s.workspaces.find? (fun w => w.name == a)).isSome := by
    rw [List.find?_isSome]
    obtain ⟨wa, hwa, hna⟩ := ha
    exact ⟨wa, hwa, by simp [hna]⟩
  obtain ⟨w₀, hw₀⟩ := Option.isSome_iff_exists.mp hs
  have hany : s.workspaces.any (fun w => w.name == b) = true := by
    rw [List.any_eq_true]
    obtain ⟨wb, hwb, hnb⟩ := hb
    exact ⟨wb, hwb, by simp [hnb]⟩
  simp [renameWorkspace, hw₀, hany]

/-- **C6**: renaming onto a name that is already taken fails with
`Conflict` and returns the persisted store exactly as it was — every
workspace record and `currentWorkspace` included. -/
theorem rename_to_existing_name_conflicts
    (s : TabWorkspaceState) (a b : String) (now : Nat)
    (ha : ∃ w ∈ s.workspaces, w.name = a) (hb : ∃ w ∈ s.workspaces, w.name = b) :
    renameWorkspace a b now s = (s, .error (.conflict b)) :=
  rename_conflict_of_mem ha hb

/-- Witness for C6 at a concrete two-workspace store. -/
theorem rename_to_existing_name_conflicts_witness :
    renameWorkspace "a" "b" 3
        ⟨[⟨"a", ["file:///a.ts"], 0, 0⟩, ⟨"b", [], 1, 1⟩], some "a", none⟩
      = (⟨[⟨"a", ["file:///a.ts"], 0, 0⟩, ⟨"b", [], 1, 1⟩], some "a", none⟩,
         .error (.conflict "b")) :=
  rename_to_existing_name_conflicts _ "a" "b" 3 (by decide) (by decide)

/-- **C10**: renaming a workspace to its own current name always fails
with `Conflict`, because the duplicate check counts the workspace being
renamed itself; the store is returned unchanged. -/
theorem rename_self_conflicts
    (s : TabWorkspaceState) (a : String) (now : Nat)
    (ha : ∃ w ∈ s.workspaces, w.name = a) :
    renameWorkspace a a now s = (s, .error (.conflict a)) :=
  rename_conflict_of_mem ha ha

/-- Witness for C10: a self-rename on a singleton store. -/
theorem rename_self_conflicts_witness :
    renameWorkspace "w" "w" 3 ⟨[⟨"w", [], 0, 0⟩], none, none⟩
      = (⟨[⟨"w", [], 0, 0⟩], none, none⟩, .error (.conflict "w")) :=
  rename_self_conflicts _ "w" 3 (by decide)

/-- **C7**: deleting an existing workspace succeeds; the survivors are
exactly the records not carrying the name (fields untouched, order
kept); `currentName()` becomes absent when the deleted workspace was
current and is unchanged otherwise. -/
theorem delete_workspace_current_semantics
    (s : TabWorkspaceState) (n : String)
    (h : ∃ w ∈ s.workspaces, w.name = n) :
    (deleteWorkspace n s).2 = .ok ()
    ∧ (deleteWorkspace n s).1.workspaces = s.workspaces.filter (fun w => w.name != n)
    ∧ (s.currentWorkspace = some n →
        getCurrentWorkspaceName (deleteWorkspace n s).1 = none)
    ∧ (s.currentWorkspace ≠ some n →
        getCurrentWorkspaceName (deleteWorkspace n s).1 = getCurrentWorkspaceName s) := by
  have hlt : (s.workspaces.filter (fun w => w.name != n)).length < s.workspaces.length := by
    rw [List.length_filter_lt_length_iff_exists]
    obtain ⟨w, hw, hn⟩ := h
    exact ⟨w, hw, by simp [hn]⟩
  refine ⟨?_, ?_, ?_, ?_⟩
  · simp [deleteWorkspace, hlt]
  · simp [deleteWorkspace, hlt]
  · intro hc
    simp [deleteWorkspace, hlt, getCurrentWorkspaceName, hc]
  · intro hc
    simp [deleteWorkspace, hlt, getCurrentWorkspaceName, hc]

/-- Witness for C7: deleting the current workspace of a two-workspace
store clears the current name and keeps the other record. -/
theorem delete_workspace_current_semantics_witness :
    (deleteWorkspace "a"
        ⟨[⟨"a", [], 0, 0⟩, ⟨"b", [], 1, 1⟩], some "a", none⟩).2 = .ok ()
    ∧ getCurrentWorkspaceName
        (deleteWorkspace "a"
          ⟨[⟨"a", [], 0, 0⟩, ⟨"b", [], 1, 1⟩], some "a", none⟩).1 = none := by
  have h := delete_workspace_current_semantics
    ⟨[⟨"a", [], 0, 0⟩, ⟨"b", [], 1, 1⟩], some "a", none⟩ "a" (by decide)
  exact ⟨h.1, h.2.2.1 rfl⟩

/-- **C9**: deleting a name that matches no stored workspace throws
`NotFound`, but only after persisting: the workspace list is written
back unchanged, and a dangling `currentWorkspace` equal to that name is
cleared in the persisted store, which therefore differs from the
starting one on this error path. -/
theorem delete_missing_persists_before_throw
    (s : TabWorkspaceState) (n : String)
    (h : ∀ w ∈ s.workspaces, w.name ≠ n) :
    (deleteWorkspace n s).2 = .error (.notFound n)
    ∧ (deleteWorkspace n s).1.workspaces = s.workspaces
    ∧ (s.currentWorkspace = some n →
        (deleteWorkspace n s).1.currentWorkspace = none ∧ (deleteWorkspace n s).1 ≠ s)
    ∧ (s.currentWorkspace ≠ some n → (deleteWorkspace n s).1 = s) := by
  have hfil : s.workspaces.filter (fun w => w.name != n) = s.workspaces :=
    List.filter_eq_self.mpr (fun a ha => by simp [h a ha])
  have hnlt : ¬ (s.workspaces.filter (fun w => w.name != n)).length
      < s.workspaces.length := by
    rw [hfil]
    omega
  refine ⟨?_, ?_, ?_, ?_⟩
  · simp [deleteWorkspace, hnlt]
  · simp [deleteWorkspace, hnlt, hfil]
  · intro hc
    constructor
    · simp [deleteWorkspace, hnlt, hc]
    · intro heq
      have hcw := congrArg TabWorkspaceState.currentWorkspace heq
      simp [deleteWorkspace, hnlt, hc] at hcw
  · intro hc
    simp [deleteWorkspace, hnlt, hfil, hc]

/-- Witness for C9: deleting a missing name while `currentWorkspace`
dangles on that very name clears the reference and still throws. -/
theorem delete_missing_persists_before_throw_witness :
    (deleteWorkspace "gone" ⟨[⟨"a", [], 0, 0⟩], some "gone", none⟩).2
      = .error (.notFound "gone")
    ∧ (deleteWorkspace "gone" ⟨[⟨"a", [], 0, 0⟩], some "gone", none⟩).1.currentWorkspace
      = none := by
  have h := delete_missing_persists_before_throw
    ⟨[⟨"a", [], 0, 0⟩], some "gone", none⟩ "gone" (by decide)
  exact ⟨h.1, (h.2.2.1 rfl).1⟩

/-- **C2** (divergence record): loading workspace `"w"` (stored
`lastModified = 0`) at clock 5 completes with one opened tab and points
`currentWorkspace` at `"w"`, but the persisted record still carries
`lastModified = 0` — the source refreshes the timestamp only on the
spread-created copy it then discards, so the stored timestamp is never
updated. -/
theorem loadWorkspace_lastModified_unrefreshed :
    (loadWorkspace "w" false [] hostAllOk 5
        ⟨[⟨"w", ["file:///a/x.ts"], 0, 0⟩], none, none⟩).result = .ok ⟨1, 0⟩
    ∧ (loadWorkspace "w" false [] hostAllOk 5
        ⟨[⟨"w", ["file:///a/x.ts"], 0, 0⟩], none, none⟩).state.currentWorkspace
      = some "w"
    ∧ (loadWorkspace "w" false [] hostAllOk 5
        ⟨[⟨"w", ["file:///a/x.ts"], 0, 0⟩], none, none⟩).state.workspaces
      = [⟨"w", ["file:///a/x.ts"], 0, 0⟩] := by
  refine ⟨by decide, by decide, by decide⟩

/-! ### Claim C3 -/

/-- A load-path iteration opens its tab exactly when the tab is
reopenable under the host. -/
lemma loadOpenStep_opened (host : Host) (u : String) :
    (loadOpenStep host u).2 = tabOpenable host u := by
  unfold loadOpenStep tabOpenable
  by_cases hs : uriScheme u = "file"
  · cases h1 : host.statFail u <;> cases h2 : host.openDocFail u
      <;> cases h3 : host.showDocFail u <;> simp [hs, h1, h2, h3]
  · simp [hs]

/-- The loop fold with an arbitrary accumulator adds the two
complementary `countP`s to the incoming counters. -/
lemma loadLoop_fold_counts (host : Host) (tabs : List String)
    (st : OpenStats) (tr : List HostCall) :
    (tabs.foldl (loadLoopStep host) (st, tr)).1 =
      ⟨st.opened + tabs.countP (tabOpenable host),
       st.skipped + tabs.countP (fun u => !tabOpenable host u)⟩ := by
  induction tabs generalizing st tr with
  | nil => simp
  | cons u us ih =>
    rw [List.foldl_cons]
    rw [show loadLoopStep host (st, tr) u
        = (⟨st.opened + (if (loadOpenStep host u).2 then 1 else 0),
            st.skipped + (if (loadOpenStep host u).2 then 0 else 1)⟩,
           tr ++ (loadOpenStep host u).1) from rfl]
    rw [ih]
    rw [List.countP_cons, List.countP_cons]
    have h := loadOpenStep_opened host u
    cases ht : tabOpenable host u
    · simp [h, ht, OpenStats.mk.injEq]
      try omega
    · simp [h, ht, OpenStats.mk.injEq]
      try omega

/-- The counters `loadOpenLoop` returns are the counts of reopenable
and non-reopenable stored tabs. -/
lemma loadOpenLoop_counts (host : Host) (tabs : List String) :
    (loadOpenLoop host tabs).1 =
      ⟨tabs.countP (tabOpenable host),
       tabs.countP (fun u => !tabOpenable host u)⟩ := by
  rw [loadOpenLoop, loadLoop_fold_counts]
  simp

/-- **C3**: the close-then-reopen executor absorbs every per-pane
failure.  (1) When the stored workspace exists and the batch close is
not the failing call, `loadWorkspace` returns `ok` with
`opened = n − k` and `skipped = k` for `k` the number of non-reopenable
tabs of the n-tab workspace.  (2) When the workspace exists, the only
error the call can end in is `BatchCloseFailure`, it happens only when
panes were open and the batch close failed, and at that point the only
host call made was the close — zero panes reopened.  (3) The sort-path
executor never raises at all: a failing batch close makes it return a
zero reopened count after only the close call. -/
theorem executor_failure_semantics :
    (∀ (s : TabWorkspaceState) (name : String) (autoSave : Bool)
        (liveTabs : List Tab) (host : Host) (now : Nat) (wd : TabWorkspace),
      s.workspaces.find? (fun w => w.name == name) = some wd →
      (liveTabs = [] ∨ host.closeOk = true) →
      (loadWorkspace name autoSave liveTabs host now s).result =
        .ok ⟨wd.tabs.countP (tabOpenable host),
             wd.tabs.countP (fun u => !tabOpenable host u)⟩
      ∧ wd.tabs.countP (tabOpenable host)
          + wd.tabs.countP (fun u => !tabOpenable host u) = wd.tabs.length)
  ∧ (∀ (s : TabWorkspaceState) (name : String) (autoSave : Bool)
        (liveTabs : List Tab) (host : Host) (now : Nat),
      (s.workspaces.find? (fun w => w.name == name)).isSome →
      ∀ e, (loadWorkspace name autoSave liveTabs host now s).result = .error e →
        e = .batchCloseFailure ∧ liveTabs ≠ [] ∧ host.closeOk = false
        ∧ (loadWorkspace name autoSave liveTabs host now s).calls = [.closeAll])
  ∧ (∀ (order : List String) (liveTabs : List Tab) (host : Host),
      1 < liveTabs.length → host.closeOk = false →
      sortTabs order liveTabs host = ⟨[.closeAll], 0⟩) := by
  refine ⟨?_, ?_, ?_⟩
  · intro s name autoSave liveTabs host now wd hfind hclose
    refine ⟨?_, countP_add_countP_not _ _⟩
    rcases hclose with hclose | hclose
    · subst hclose
      simp [loadWorkspace, hfind, loadOpenLoop_counts]
    · simp [loadWorkspace, hfind, hclose, loadOpenLoop_counts]
  · intro s name autoSave liveTabs host now hsome e he
    obtain ⟨wd, hfind⟩ := Option.isSome_iff_exists.mp hsome
    cases hie : liveTabs.isEmpty with
    | true =>
      exfalso
      simp [loadWorkspace, hfind, hie] at he
    | false =>
      cases hc : host.closeOk with
      | true =>
        exfalso
        simp [loadWorkspace, hfind, hie, hc] at he
      | false =>
        have hne : liveTabs ≠ [] := List.isEmpty_eq_false.mp hie
        have he' : e = .batchCloseFailure := by
          simp [loadWorkspace, hfind, hie, hc] at he
          exact he.symm
        refine ⟨he', hne, rfl, ?_⟩
        simp [loadWorkspace, hfind, hie, hc]
  · intro order liveTabs host hlen hclose
    have h1 : ¬ liveTabs.length ≤ 1 := by omega
    simp [sortTabs, h1, hclose]

/-- Concrete host for the C3 witness: stat fails on two of five paths. -/
def c3Host : Host :=
  { closeOk := true,
    statFail := fun u =>
      if u == "file:///2.ts" || u == "file:///4.ts" then some "ENOENT" else none,
    openDocFail := fun _ => none, showDocFail := fun _ => none,
    diffFail := fun _ => false }

/-- Concrete host for the C3 witness: the batch close fails. -/
def c3NoClose : Host :=
  { closeOk := false, statFail := fun _ => none, openDocFail := fun _ => none,
    showDocFail := fun _ => none, diffFail := fun _ => false }

/-- Concrete five-tab workspace record for the C3 witness. -/
def c3Ws : TabWorkspace :=
  ⟨"w5", ["file:///1.ts", "file:///2.ts", "file:///3.ts",
          "file:///4.ts", "file:///5.ts"], 0, 0⟩

/-- Concrete store for the C3 witness. -/
def c3Store : TabWorkspaceState := ⟨[c3Ws], none, none⟩

/-- Two concrete live tabs for the C3 witness. -/
def c3TabA : Tab := ⟨false, false, "a.ts", 1, .text "file:///a.ts"⟩

/-- Second concrete live tab for the C3 witness. -/
def c3TabB : Tab := ⟨false, false, "b.ts", 1, .text "file:///b.ts"⟩

/-- Witness for C3: a five-tab workspace with two stat-failing paths
loads as `{opened 3, skipped 2}`, and a failing batch close makes the
sort path return zero after the close call alone. -/
theorem executor_failure_semantics_witness :
    (loadWorkspace "w5" false [] c3Host 0 c3Store).result = .ok ⟨3, 2⟩
    ∧ sortTabs [] [c3TabA, c3TabB] c3NoClose = ⟨[.closeAll], 0⟩ := by
  constructor
  · have h := (executor_failure_semantics.1 c3Store "w5" false [] c3Host 0 c3Ws
      (by decide) (Or.inl rfl)).1
    exact h.trans (by decide)
  · exact executor_failure_semantics.2.2 [] [c3TabA, c3TabB] c3NoClose
      (by decide) rfl

/-! ### Claim C1 -/

/-- An empty `previousWorkspace` slot makes `restorePreviousWorkspace`
fail with `NoPreviousWorkspace`, touching nothing. -/
lemma restore_empty_slot (s : TabWorkspaceState) (live : List Tab) (host : Host)
    (now : Nat) (hp : s.previousWorkspace = none) :
    restorePreviousWorkspace live host now s = ⟨s, [], .error .noPreviousWorkspace⟩ := by
  simp [restorePreviousWorkspace, hp]

/-- A found workspace loads successfully (without auto-save) whenever
the host's batch close succeeds; the resulting persisted state is the
starting one with `currentWorkspace` repointed. -/
lemma loadWorkspace_noauto_ok (name : String) (live : List Tab) (host : Host)
    (now : Nat) (s : TabWorkspaceState) (wd : TabWorkspace)
    (hfind : s.workspaces.find? (fun w => w.name == name) = some wd)
    (hc : host.closeOk = true) :
    (loadWorkspace name false live host now s).result = .ok (loadOpenLoop host wd.tabs).1
    ∧ (loadWorkspace name false live host now s).state
      = { s with currentWorkspace := some name } := by
  cases hie : live.isEmpty <;> simp [loadWorkspace, hfind, hie, hc]

/-- A populated slot restores successfully whenever the host's batch
close succeeds, and the restore empties the slot. -/
lemma restore_ok_of_slot (s : TabWorkspaceState) (prev : TabWorkspace)
    (live : List Tab) (host : Host) (now : Nat)
    (hp : s.previousWorkspace = some prev) (hc : host.closeOk = true) :
    (restorePreviousWorkspace live host now s).result = .ok ()
    ∧ (restorePreviousWorkspace live host now s).state.previousWorkspace = none := by
  have hfs : (((s.workspaces ++ [{ prev with name := "restored-" ++ toString now }]).find?
      (fun (w : TabWorkspace) => w.name == ("restored-" ++ toString now)))).isSome := by
    apply find?_append_single_isSome
    simp
  obtain ⟨w₂, hw₂⟩ := Option.isSome_iff_exists.mp hfs
  have hLoad := loadWorkspace_noauto_ok ("restored-" ++ toString now) live host now
    ⟨s.workspaces ++ [{ prev with name := "restored-" ++ toString now }],
     s.currentWorkspace, some prev⟩ w₂ hw₂ hc
  simp only [restorePreviousWorkspace, hp]
  rw [hLoad.1]
  simp

/-- **C1**: with an empty slot `restorePreviousWorkspace` fails with
`NoPreviousWorkspace`; a successful `loadWorkspace(name, true)` run
while panes were open leaves the slot holding the auto-saved snapshot
of those panes, after which a `restorePreviousWorkspace` (on a host
whose batch close succeeds) succeeds and empties the slot, so that a
further `restorePreviousWorkspace` fails with `NoPreviousWorkspace`
again. -/
theorem restorePrevious_slot_protocol :
    (∀ (s : TabWorkspaceState) (liveTabs : List Tab) (host : Host) (now : Nat),
      s.previousWorkspace = none →
      restorePreviousWorkspace liveTabs host now s
        = ⟨s, [], .error .noPreviousWorkspace⟩)
  ∧ (∀ (s : TabWorkspaceState) (name : String) (liveTabs : List Tab) (host : Host)
      (now : Nat) (stats : OpenStats),
      liveTabs ≠ [] →
      (loadWorkspace name true liveTabs host now s).result = .ok stats →
      (loadWorkspace name true liveTabs host now s).state.previousWorkspace
        = some (mkWorkspace ("auto-save-" ++ toString now) liveTabs now)
      ∧ ∀ (live₂ : List Tab) (host₂ : Host) (now₂ : Nat),
          host₂.closeOk = true →
          (restorePreviousWorkspace live₂ host₂ now₂
              (loadWorkspace name true liveTabs host now s).state).result = .ok ()
          ∧ (restorePreviousWorkspace live₂ host₂ now₂
              (loadWorkspace name true liveTabs host now s).state).state.previousWorkspace
            = none
          ∧ ∀ (live₃ : List Tab) (host₃ : Host) (now₃ : Nat),
              (restorePreviousWorkspace live₃ host₃ now₃
                  (restorePreviousWorkspace live₂ host₂ now₂
                    (loadWorkspace name true liveTabs host now s).state).state).result
                = .error .noPreviousWorkspace) := by
  constructor
  · intro s liveTabs host now hp
    exact restore_empty_slot s liveTabs host now hp
  · intro s name liveTabs host now stats hne hok
    have hie : liveTabs.isEmpty = false := List.isEmpty_eq_false.mpr hne
    cases hfind : s.workspaces.find? (fun w => w.name == name) with
    | none =>
      exfalso
      rw [loadWorkspace] at hok
      simp [hfind] at hok
    | some wd =>
      cases hc : host.closeOk with
      | false =>
        exfalso
        simp [loadWorkspace, hfind, hie, hc] at hok
      | true =>
        have hprev : (loadWorkspace name true liveTabs host now s).state.previousWorkspace
            = some (mkWorkspace ("auto-save-" ++ toString now) liveTabs now) := by
          simp [loadWorkspace, hfind, hie, hc, saveCurrentTabsAsWorkspace]
        refine ⟨hprev, ?_⟩
        intro live₂ host₂ now₂ hc₂
        have hres := restore_ok_of_slot
          (loadWorkspace name true liveTabs host now s).state
          (mkWorkspace ("auto-save-" ++ toString now) liveTabs now)
          live₂ host₂ now₂ hprev hc₂
        refine ⟨hres.1, hres.2, ?_⟩
        intro live₃ host₃ now₃
        rw [restore_empty_slot _ live₃ host₃ now₃ hres.2]

/-- Concrete store for the C1 witness. -/
def c1Store : TabWorkspaceState := ⟨[⟨"w", ["file:///a/x.ts"], 0, 0⟩], none, none⟩

/-- Concrete live tab for the C1 witness. -/
def c1Tab : Tab := ⟨true, false, "y.ts", 1, .text "file:///a/y.ts"⟩

/-- Witness for C1: a concrete load with auto-save populates the slot,
the first restore succeeds, the second fails with
`NoPreviousWorkspace`. -/
theorem restorePrevious_slot_protocol_witness :
    (restorePreviousWorkspace [] hostAllOk 7
        (loadWorkspace "w" true [c1Tab] hostAllOk 5 c1Store).state).result = .ok ()
    ∧ (restorePreviousWorkspace [] hostAllOk 9
        (restorePreviousWorkspace [] hostAllOk 7
          (loadWorkspace "w" true [c1Tab] hostAllOk 5 c1Store).state).state).result
      = .error .noPreviousWorkspace := by
  have h := (restorePrevious_slot_protocol.2 c1Store "w" [c1Tab] hostAllOk 5
    ⟨1, 0⟩ (by decide) (by decide)).2 [] hostAllOk 7 rfl
  exact ⟨h.1, h.2.2 [] hostAllOk 9⟩

/-! ### Claim C4 -/

/-- Whether a host call is the existence probe. -/
def isStatCall : HostCall → Bool
  | .statCall _ => true
  | _ => false

/-- Concrete live tabs for the C4 counterexample. -/
def c4TabA : Tab := ⟨false, false, "a.ts", 1, .text "file:///d/a.ts"⟩

/-- Second concrete live tab for the C4 counterexample. -/
def c4TabB : Tab := ⟨false, false, "b.ts", 1, .text "file:///d/b.ts"⟩

/-- **C4 counterexample**: in the sort path a single-document descriptor
is reopened (`openDoc` appears in the trace) although no existence
check was issued anywhere in the run, and in the load path the show
call carries no `viewColumn` and a hard-coded `preview: false` — so the
claimed protocol (existence verified first, recorded `viewColumn`,
non-preview exactly when pinned, in both paths) fails on the code. -/
theorem reopen_descriptor_protocol_counterexample :
    HostCall.openDoc "file:///d/a.ts" ∈ (sortTabs [] [c4TabA, c4TabB] hostAllOk).calls
    ∧ (sortTabs [] [c4TabA, c4TabB] hostAllOk).calls.all (fun c => !isStatCall c) = true
    ∧ (loadOpenStep hostAllOk "file:///d/a.ts").1
      = [.statCall "file:///d/a.ts", .openDoc "file:///d/a.ts",
         .showDoc "file:///d/a.ts" none (some false) true] := by
  decide

/-- **C4 amended**: per single-document descriptor, the sort path opens
the document with *no* existence check, in its recorded `viewColumn`,
non-preview exactly when pinned, without taking focus; the load path
verifies existence first but then shows the document with no
`viewColumn` option and with preview disabled unconditionally (the
store kept only the URI string, neither `viewColumn` nor pinned state),
without taking focus. -/
theorem reopen_descriptor_protocol_amended :
    (∀ (host : Host) (t : TabInfo) (u : String),
      t.uri = some u → t.originalUri = none →
      (sortReopenStep host t).1.head? = some (.openDoc u)
      ∧ (∀ c ∈ (sortReopenStep host t).1, isStatCall c = false)
      ∧ ∀ w vc pv pf, HostCall.showDoc w vc pv pf ∈ (sortReopenStep host t).1 →
          w = u ∧ vc = some t.viewColumn ∧ pv = some !t.isPinned ∧ pf = true)
  ∧ (∀ (host : Host) (u : String), uriScheme u = "file" →
      (loadOpenStep host u).1.head? = some (.statCall u)
      ∧ ∀ w vc pv pf, HostCall.showDoc w vc pv pf ∈ (loadOpenStep host u).1 →
          w = u ∧ vc = none ∧ pv = some false ∧ pf = true) := by
  constructor
  · intro host t u hu ho
    rcases h1 : host.openDocFail u with _ | m1
    · rcases h2 : host.showDocFail u with _ | m2
      · refine ⟨?_, ?_, ?_⟩ <;> simp [sortReopenStep, hu, ho, h1, h2, isStatCall]
      · refine ⟨?_, ?_, ?_⟩ <;> simp [sortReopenStep, hu, ho, h1, h2, isStatCall]
    · refine ⟨?_, ?_, ?_⟩ <;> simp [sortReopenStep, hu, ho, h1, isStatCall]
  · intro host u hs
    rcases h1 : host.statFail u with _ | m1
    · rcases h2 : host.openDocFail u with _ | m2
      · rcases h3 : host.showDocFail u with _ | m3
        · refine ⟨?_, ?_⟩ <;> simp [loadOpenStep, hs, h1, h2, h3]
        · refine ⟨?_, ?_⟩ <;> simp [loadOpenStep, hs, h1, h2, h3]
      · refine ⟨?_, ?_⟩ <;> simp [loadOpenStep, hs, h1, h2]
    · refine ⟨?_, ?_⟩ <;> simp [loadOpenStep, hs, h1]

/-- Witness for C4's amended claim at a concrete pinned descriptor. -/
theorem reopen_descriptor_protocol_amended_witness :
    (sortReopenStep hostAllOk
        ⟨some "file:///d/a.ts", none, none, none, false, true, "a.ts", 2⟩).1.head?
      = some (.openDoc "file:///d/a.ts")
    ∧ (loadOpenStep hostAllOk "file:///d/a.ts").1.head?
      = some (.statCall "file:///d/a.ts") := by
  have h1 := (reopen_descriptor_protocol_amended.1 hostAllOk
    ⟨some "file:///d/a.ts", none, none, none, false, true, "a.ts", 2⟩
    "file:///d/a.ts" rfl rfl).1
  have h2 := (reopen_descriptor_protocol_amended.2 hostAllOk "file:///d/a.ts"
    (by decide)).1
  exact ⟨h1, h2⟩

/-! ### Claim C8 -/

/-- The comparator as the spec words it (§4.2): both extensions listed
in the custom order → by index, ties by sort key; exactly one listed →
that one first; otherwise by extension then sort key.  Kept for
comparison with `tabCmp`, the comparator read off the source. -/
def tabCmpSpec (order : List String) (a b : TabInfo) : Int :=
  let aExt := getFileExtensionFromTabInfo a
  let bExt := getFileExtensionFromTabInfo b
  let aKey := getFileNameFromTabInfo a
  let bKey := getFileNameFromTabInfo b
  if aExt ∈ order ∧ bExt ∈ order then
    if jsIndexOf order aExt ≠ jsIndexOf order bExt then
      jsIndexOf order aExt - jsIndexOf order bExt
    else strCmp aKey bKey
  else if aExt ∈ order then -1
  else if bExt ∈ order then 1
  else if aExt ≠ bExt then strCmp aExt bExt else strCmp aKey bKey

/-- `jsIndexOf` is `-1` or a genuine (non-negative) index. -/
lemma jsIndexOf_nonneg_or (l : List String) (x : String) :
    jsIndexOf l x = -1 ∨ 0 ≤ jsIndexOf l x := by
  induction l with
  | nil => exact Or.inl rfl
  | cons h t ih =>
    rw [jsIndexOf]
    by_cases hx : h = x
    · rw [if_pos hx]
      right
      omega
    · rw [if_neg hx]
      by_cases h2 : jsIndexOf t x = -1
      · rw [if_pos h2]
        exact Or.inl rfl
      · rw [if_neg h2]
        right
        rcases ih with h1 | h1
        · exact absurd h1 h2
        · omega

/-- `jsIndexOf` returns `-1` exactly on the absent elements. -/
lemma jsIndexOf_eq_neg_one_iff (l : List String) (x : String) :
    jsIndexOf l x = -1 ↔ x ∉ l := by
  induction l with
  | nil => simp [jsIndexOf]
  | cons h t ih =>
    rw [jsIndexOf]
    by_cases hx : h = x
    · rw [if_pos hx]
      subst hx
      simp
    · rw [if_neg hx]
      by_cases h2 : jsIndexOf t x = -1
      · rw [if_pos h2]
        have hnotin : x ∉ h :: t := by
          simp only [List.mem_cons, not_or]
          exact ⟨fun he => hx he.symm, ih.mp h2⟩
        simp [hnotin]
      · rw [if_neg h2]
        have h3 : 0 ≤ jsIndexOf t x := (jsIndexOf_nonneg_or t x).resolve_left h2
        constructor
        · intro hcon
          omega
        · intro hmem
          exact absurd (ih.mpr fun hm => hmem (List.mem_cons_of_mem _ hm)) h2

/-- The source comparator agrees with the spec's wording everywhere. -/
lemma tabCmp_matches_spec (order : List String) (a b : TabInfo) :
    tabCmp order a b = tabCmpSpec order a b := by
  cases order with
  | nil => simp [tabCmp, tabCmpSpec]
  | cons o os =>
    by_cases hma : getFileExtensionFromTabInfo a ∈ (o :: os)
      <;> by_cases hmb : getFileExtensionFromTabInfo b ∈ (o :: os)
    · have ha : ¬ jsIndexOf (o :: os) (getFileExtensionFromTabInfo a) = -1 :=
        fun h => (jsIndexOf_eq_neg_one_iff _ _).mp h hma
      have hb : ¬ jsIndexOf (o :: os) (getFileExtensionFromTabInfo b) = -1 :=
        fun h => (jsIndexOf_eq_neg_one_iff _ _).mp h hmb
      simp [tabCmp, tabCmpSpec, hma, hmb, ha, hb]
    · have ha : ¬ jsIndexOf (o :: os) (getFileExtensionFromTabInfo a) = -1 :=
        fun h => (jsIndexOf_eq_neg_one_iff _ _).mp h hma
      have hb : jsIndexOf (o :: os) (getFileExtensionFromTabInfo b) = -1 :=
        (jsIndexOf_eq_neg_one_iff _ _).mpr hmb
      simp [tabCmp, tabCmpSpec, hma, hmb, ha, hb]
    · have ha : jsIndexOf (o :: os) (getFileExtensionFromTabInfo a) = -1 :=
        (jsIndexOf_eq_neg_one_iff _ _).mpr hma
      have hb : ¬ jsIndexOf (o :: os) (getFileExtensionFromTabInfo b) = -1 :=
        fun h => (jsIndexOf_eq_neg_one_iff _ _).mp h hmb
      simp [tabCmp, tabCmpSpec, hma, hmb, ha, hb]
    · have ha : jsIndexOf (o :: os) (getFileExtensionFromTabInfo a) = -1 :=
        (jsIndexOf_eq_neg_one_iff _ _).mpr hma
      have hb : jsIndexOf (o :: os) (getFileExtensionFromTabInfo b) = -1 :=
        (jsIndexOf_eq_neg_one_iff _ _).mpr hmb
      simp [tabCmp, tabCmpSpec, hma, hmb, ha, hb]

/-- Concrete descriptor (extension `ts`, base name `zeta`) for C8. -/
def c8TsZeta : TabInfo :=
  ⟨some "file:///d/zeta.ts", none, none, none, false, false, "zeta.ts", 1⟩

/-- Concrete descriptor (extension `md`) for C8. -/
def c8Md : TabInfo :=
  ⟨some "file:///d/readme.md", none, none, none, false, false, "readme.md", 1⟩

/-- Concrete descriptor (extension `ts`, base name `alpha`) for C8. -/
def c8TsAlpha : TabInfo :=
  ⟨some "file:///d/alpha.ts", none, none, none, false, false, "alpha.ts", 1⟩

/-- **C8**: the source comparator equals the spec's case analysis on
every pair and every custom order, and sorting the `[ts, md, ts]`
example under `customOrder = ["md", "ts"]` puts the `md` item first and
the two `ts` items in base-name order. -/
theorem sort_comparator_follows_spec :
    (∀ (order : List String) (a b : TabInfo), tabCmp order a b = tabCmpSpec order a b)
    ∧ sortTabInfoArray [c8TsZeta, c8Md, c8TsAlpha] ["md", "ts"]
      = [c8Md, c8TsAlpha, c8TsZeta] :=
  ⟨tabCmp_matches_spec, by decide⟩

end Cleanx
